import Mathlib

/-!
Shallow embedding of the skill-mine round-settlement core (Rust sources:
src/api/src/state/round.rs, src/api/src/state/miner.rs,
src/program/src/checkpoint.rs, src/program/src/deploy.rs).

Machine integers (u64/u128/u8/u16) are modelled as Nat.  Explicit `% 2 ^ 64`
marks the points where the Rust code performs an `as u64` narrowing cast of a
128-bit intermediate; other u64 additions are modelled in Nat (theorems carry
range hypotheses where the value matters).  Pubkeys are modelled as opaque
naturals.  The fixed-point `Numeric` type of the external steel crate is
modelled as exact rationals, with `Numeric::to_u64` truncating toward zero.
Fallible paths (failed account validation, assert! panics) return `Except`.
-/

/-- Largest u64 value, used by the source as an "unset" sentinel. -/
def U64_MAX : Nat := 2 ^ 64 - 1

/-- Modelled from the spec: grace period between round end and expiry
(one day of 0.4-second slots); the constant declaration is not among the
modelled sources. No claim depends on its value. -/
def ONE_DAY_SLOTS : Nat := 216000

/-- Modelled from the spec: the bot-incentive window before expiry
(twelve hours of slots); the constant declaration is not among the modelled
sources. No claim depends on its value. -/
def TWELVE_HOURS_SLOTS : Nat := 108000

/-- Modelled from the spec: fixed per-participant checkpoint fee escrowed on
first deploy of a round; the constant declaration is not among the modelled
sources. No claim depends on its value. -/
def CHECKPOINT_FEE : Nat := 1000000

/-- Modelled from the spec: distinguished sentinel pubkey stored in
`Round.top_miner` to mark a round whose token reward is split pro rata.
Pubkeys are opaque naturals here; the only property used is that it is a
fixed distinguished value. -/
def SPLIT_ADDRESS : Nat := 999999999

/-- Rust `u64::leading_zeros` for values below `2 ^ 64`:
64 for zero, otherwise `63 - floor(log2 n)`. -/
def u64LeadingZeros (n : Nat) : Nat :=
  if n = 0 then 64 else 63 - Nat.log2 n

/-- Rust `u64::saturating_mul`. -/
def u64SaturatingMul (a b : Nat) : Nat :=
  min (a * b) U64_MAX

/-- Rust `u64::reverse_bits` for values below `2 ^ 64`: bit `k` moves to
bit `63 - k`. -/
def u64ReverseBits (n : Nat) : Nat :=
  (List.range 64).foldl (fun acc k => acc * 2 + n / 2 ^ k % 2) 0

/-- Rust `u64::from_le_bytes` over an 8-byte window of a byte function. -/
def u64FromLeBytes (bytes : Nat → Nat) (off : Nat) : Nat :=
  (List.range 8).foldl (fun acc k => acc + bytes (off + k) * 256 ^ k) 0

/-- Round state (src/api/src/state/round.rs).  Byte array `slot_hash` and the
per-square u64 arrays are modelled as functions from index to value (indices
at or above the array length are unused). -/
structure Round where
  id : Nat
  deployed : Nat → Nat
  slot_hash : Nat → Nat
  count : Nat → Nat
  expires_at : Nat
  motherlode : Nat
  rent_payer : Nat
  top_miner : Nat
  top_miner_reward : Nat
  total_deployed : Nat
  total_vaulted : Nat
  total_winnings : Nat
  winning_square : Nat
  bonus_squares : Nat → Nat
  commit_start_slot : Nat
  reveal_start_slot : Nat
  revealed_count : Nat → Nat
  total_reveals : Nat

/-- Miner (participant) state (src/api/src/state/miner.rs).  The
`rewards_factor` field holds the fixed-point accumulator value last observed,
modelled as a rational. -/
structure Miner where
  authority : Nat
  deployed : Nat → Nat
  cumulative : Nat → Nat
  checkpoint_fee : Nat
  checkpoint_id : Nat
  last_claim_ore_at : Int
  last_claim_sol_at : Int
  rewards_factor : ℚ
  rewards_sol : Nat
  rewards_ore : Nat
  refined_ore : Nat
  round_id : Nat
  lifetime_rewards_sol : Nat
  lifetime_rewards_ore : Nat
  skill_score : Nat
  prediction : Nat
  streak : Nat
  last_prediction_round : Nat
  challenge_count : Nat
  challenge_wins : Nat

/-- Modelled from the spec: the Treasury (RewardIndex) record declaration is
not among the modelled sources; its three fields used by the settlement core
are fully determined by their uses in miner.rs and checkpoint.rs: the global
fixed-point reward-per-unit factor, the aggregate unclaimed token pool, and
the aggregate refined (fee-redistributed) pool. -/
structure Treasury where
  miner_rewards_factor : ℚ
  total_unclaimed : Nat
  total_refined : Nat

/-- Modelled from the spec: the Board record declaration is not among the
modelled sources; the three fields used by deploy.rs and checkpoint.rs are
the current round id and the start/end slots of the active round window. -/
structure Board where
  round_id : Nat
  start_slot : Nat
  end_slot : Nat

namespace Round

/-- Round phase constant: deploy phase length in slots. -/
def DEPLOY_PHASE_SLOTS : Nat := 60

/-- Round phase constant: commit phase length in slots. -/
def COMMIT_PHASE_SLOTS : Nat := 30

/-- Round phase constant: reveal phase length in slots. -/
def REVEAL_PHASE_SLOTS : Nat := 30

/-- Source `Round::is_finalized`: the 32-byte slot hash is not all zero. -/
def is_finalized (r : Round) : Bool :=
  (List.range 32).any (fun i => r.slot_hash i != 0)

/-- XOR of the four little-endian u64 chunks of the slot hash; the value the
source computes inside `Round::rng`. -/
def rngValue (r : Round) : Nat :=
  ((u64FromLeBytes r.slot_hash 0 ^^^ u64FromLeBytes r.slot_hash 8) ^^^
      u64FromLeBytes r.slot_hash 16) ^^^
    u64FromLeBytes r.slot_hash 24

/-- Source `Round::rng`: `none` when the round is not finalized, otherwise
the XOR of the four u64 chunks of the slot hash. -/
def rng (r : Round) : Option Nat :=
  if r.is_finalized then some r.rngValue else none

/-- Source `Round::get_winning_square`: reads the stored winning square. -/
def get_winning_square (r : Round) : Nat :=
  r.winning_square

/-- Source `Round::top_miner_sample`: zero when the winning square holds no
stake, otherwise the bit-reversed rng value reduced modulo the winning
square's total stake. -/
def top_miner_sample (r : Round) (rngv : Nat) (winning_square : Nat) : Nat :=
  if r.deployed winning_square = 0 then 0
  else u64ReverseBits rngv % r.deployed winning_square

/-- Source `Round::is_deploy_phase`. -/
def is_deploy_phase (r : Round) (current_slot : Nat) : Bool :=
  current_slot < r.commit_start_slot

/-- Source `Round::is_commit_phase`. -/
def is_commit_phase (r : Round) (current_slot : Nat) : Bool :=
  r.commit_start_slot ≤ current_slot && current_slot < r.reveal_start_slot

end Round

namespace Miner

/-- Source constant `Miner::NO_PREDICTION`. -/
def NO_PREDICTION : Nat := 255

/-- Source constant `Miner::MAX_SKILL_MULTIPLIER`. -/
def MAX_SKILL_MULTIPLIER : Nat := 150

/-- Source constant `Miner::POINTS_PER_WIN`. -/
def POINTS_PER_WIN : Nat := 100

/-- Source `Miner::calculate_skill_multiplier`: base 100, plus a score bonus
of `(64 - leading_zeros(skill_score)) * 3 / 10` (integer division) times 5
when the score is positive, plus `min(streak, 10) * 2`, capped at 150. -/
def calculate_skill_multiplier (m : Miner) : Nat :=
  let base := 100
  let score_bonus :=
    if m.skill_score > 0 then
      u64SaturatingMul ((64 - u64LeadingZeros m.skill_score) * 3 / 10) 5
    else 0
  let streak_bonus := u64SaturatingMul (min m.streak 10) 2
  min (base + score_bonus + streak_bonus) MAX_SKILL_MULTIPLIER

/-- Source `Miner::has_prediction_for_round`. -/
def has_prediction_for_round (m : Miner) (round_id : Nat) : Bool :=
  m.last_prediction_round == round_id && m.prediction != NO_PREDICTION

/-- Source `Miner::submit_prediction`. -/
def submit_prediction (m : Miner) (square : Nat) (round_id : Nat) : Miner :=
  { m with
    prediction := square
    last_prediction_round := round_id
    challenge_count := m.challenge_count + 1 }

/-- Source `Miner::evaluate_prediction`: returns the multiplier and the
updated miner.  With no prediction recorded for the round the streak resets
and the neutral multiplier 100 is returned; otherwise the prediction is
scored, cleared, and `calculate_skill_multiplier` is returned. -/
def evaluate_prediction (m : Miner) (winning_square : Nat) (round_id : Nat) :
    Nat × Miner :=
  if m.last_prediction_round ≠ round_id ∨ m.prediction = NO_PREDICTION then
    (100, { m with streak := 0 })
  else if m.prediction = winning_square then
    let m2 := { m with
      skill_score := m.skill_score + POINTS_PER_WIN
      streak := m.streak + 1
      challenge_wins := m.challenge_wins + 1
      prediction := NO_PREDICTION }
    (m2.calculate_skill_multiplier, m2)
  else
    let m2 := { m with streak := 0, prediction := NO_PREDICTION }
    (m2.calculate_skill_multiplier, m2)

/-- Truncation of a (non-negative) fixed-point value to u64, the model of
`Numeric::to_u64`. -/
def numericToU64 (q : ℚ) : Nat := q.floor.toNat

/-- Amount the pull-based accumulator owes this miner right now: the factor
delta times the miner's claimable token balance, truncated; zero when the
global factor has not advanced past the miner's last observed factor.  This
is the quantity `Miner::update_rewards` adds to `refined_ore`. -/
def pulled_refined (m : Miner) (t : Treasury) : Nat :=
  if t.miner_rewards_factor > m.rewards_factor then
    numericToU64 ((t.miner_rewards_factor - m.rewards_factor) * (m.rewards_ore : ℚ))
  else 0

/-- Source `Miner::update_rewards`: pulls accrued index rewards into
`refined_ore`/`lifetime_rewards_ore`, then records the observed factor.
The source's negative-delta panic is unreachable under the surrounding
strict-greater test. -/
def update_rewards (m : Miner) (t : Treasury) : Miner :=
  let m2 :=
    if t.miner_rewards_factor > m.rewards_factor then
      { m with
        refined_ore := m.refined_ore + m.pulled_refined t
        lifetime_rewards_ore := m.lifetime_rewards_ore + m.pulled_refined t }
    else m
  { m2 with rewards_factor := t.miner_rewards_factor }

/-- Source `Miner::claim_ore`: pulls index rewards, drains both token
balances, removes them from the treasury pools, and when the remaining
unclaimed pool is positive skims a 10% fee from the pre-fee `rewards_ore`
portion, pushes `fee / total_unclaimed` onto the global factor, moves the
fee into `total_refined`, and deducts it from the returned amount and the
lifetime total.  Returns (amount, miner, treasury). -/
def claim_ore (m : Miner) (now : Int) (t : Treasury) : Nat × Miner × Treasury :=
  let m1 := m.update_rewards t
  let refined_ore := m1.refined_ore
  let rewards_ore := m1.rewards_ore
  let amount := refined_ore + rewards_ore
  let m2 := { m1 with refined_ore := 0, rewards_ore := 0, last_claim_ore_at := now }
  let t1 := { t with
    total_unclaimed := t.total_unclaimed - rewards_ore
    total_refined := t.total_refined - refined_ore }
  if t1.total_unclaimed > 0 then
    let fee := rewards_ore / 10
    let t2 := { t1 with
      miner_rewards_factor :=
        t1.miner_rewards_factor + (fee : ℚ) / (t1.total_unclaimed : ℚ)
      total_refined := t1.total_refined + fee }
    let m3 := { m2 with lifetime_rewards_ore := m2.lifetime_rewards_ore - fee }
    (amount - fee, m3, t2)
  else
    (amount, m2, t1)

/-- Source `Miner::claim_sol`. -/
def claim_sol (m : Miner) (now : Int) : Nat × Miner :=
  (m.rewards_sol, { m with rewards_sol := 0, last_claim_sol_at := now })

end Miner

/-!
SettlementEngine: shallow embedding of `process_checkpoint`
(src/program/src/checkpoint.rs).  External account plumbing (signer check,
account deserialization, lamport transfers, the final rent assertion) is out
of the modelled core; an empty round account is modelled as `none` together
with a flag recording whether the provided empty account passed the
`has_seeds` check for the miner's round id.
-/

/-- Inputs of one checkpoint call. -/
structure CheckpointInput where
  slot : Nat
  board_round_id : Nat
  round : Option Round
  seeds_ok : Bool
  miner : Miner
  treasury : Treasury

/-- Result of a successful checkpoint call: the updated records plus the
amounts credited in this call (`rewards_sol`, `rewards_ore` are the local
variables of the source committed at the end) and the released bot fee. -/
structure CheckpointResult where
  miner : Miner
  round : Option Round
  treasury : Treasury
  rewards_sol : Nat
  rewards_ore : Nat
  bot_fee : Nat

/-- Stake payout for a deposit `d` on the winning square, as computed at
checkpoint.rs lines 84-88: deposit minus the 1%-minimum-1 admin fee, plus
the 128-bit product `total_winnings * d / deployed_w` narrowed to u64. -/
def stakePayout (total_winnings deployed_w d : Nat) : Nat :=
  d - max (d / 100) 1 + total_winnings * d / deployed_w % 2 ^ 64

/-- Tail of `process_checkpoint` (checkpoint.rs lines 152-178): pull index
rewards, evaluate the skill prediction when a winning square was determined
and boost the token payout, then commit balances, the checkpoint id and the
treasury unclaimed pool. -/
def checkpointCommit (treasury : Treasury) (miner : Miner) (round : Round)
    (winning_square_for_skill : Option Nat) (rewards_sol rewards_ore bot_fee : Nat) :
    CheckpointResult :=
  let miner1 := miner.update_rewards treasury
  let pair :=
    match winning_square_for_skill with
    | some w =>
      let em := miner1.evaluate_prediction w round.id
      if em.1 > 100 ∧ rewards_ore > 0 then
        (rewards_ore * em.1 / 100 % 2 ^ 64, em.2)
      else (rewards_ore, em.2)
    | none => (rewards_ore, miner1)
  let rewards_ore2 := pair.1
  let miner2 := pair.2
  let miner3 := { miner2 with
    checkpoint_id := round.id
    rewards_ore := miner2.rewards_ore + rewards_ore2
    lifetime_rewards_ore := miner2.lifetime_rewards_ore + rewards_ore2
    rewards_sol := miner2.rewards_sol + rewards_sol
    lifetime_rewards_sol := miner2.lifetime_rewards_sol + rewards_sol }
  let treasury2 := { treasury with
    total_unclaimed := treasury.total_unclaimed + rewards_ore2 }
  ⟨miner3, some round, treasury2, rewards_sol, rewards_ore2, bot_fee⟩

/-- Bot-fee step (checkpoint.rs lines 55-61): inside the final window before
expiry the escrowed checkpoint fee is released to whoever cranks the
settlement.  Returns (released fee, updated miner). -/
def botFeePair (miner : Miner) (expires_at slot : Nat) : Nat × Miner :=
  if expires_at - TWELVE_HOURS_SLOTS ≤ slot then
    (miner.checkpoint_fee, { miner with checkpoint_fee := 0 })
  else (0, miner)

/-- Outcome of the reward-calculation block of `process_checkpoint`
(checkpoint.rs lines 63-150): the SOL and ORE amounts, the round (whose
`top_miner` may have been claimed), and the winning square handed to the
skill evaluation (set exactly when the round had an rng). -/
structure RewardsOutcome where
  rewards_sol : Nat
  rewards_ore : Nat
  round : Round
  winning_square_for_skill : Option Nat

/-- Reward-calculation block of `process_checkpoint` (checkpoint.rs lines
63-150).  With an rng: nothing unless the miner deployed on the winning
square; otherwise assert the round aggregate covers the miner's deposit,
pay the stake payout, the split or single-sample token lottery, and the
motherlode share.  Without an rng: assert the round's total deployed was
reset to zero and refund the miner's full stake. -/
def checkpointRewards (miner1 : Miner) (round : Round) :
    Except Unit RewardsOutcome :=
  match round.rng with
  | some r =>
    let winning_square := round.get_winning_square
    if miner1.deployed winning_square > 0 then
      if round.deployed winning_square < miner1.deployed winning_square then
        .error ()
      else
        let d := miner1.deployed winning_square
        let rewards_sol := stakePayout round.total_winnings (round.deployed winning_square) d
        let orePair :=
          if round.top_miner = SPLIT_ADDRESS then
            (round.top_miner_reward * d / round.deployed winning_square % 2 ^ 64, round)
          else
            let s := round.top_miner_sample r winning_square
            if miner1.cumulative winning_square ≤ s ∧
                s < miner1.cumulative winning_square + d then
              (round.top_miner_reward, { round with top_miner := miner1.authority })
            else (0, round)
        let round2 := orePair.2
        let rewards_ore :=
          if round2.motherlode > 0 then
            orePair.1 + round2.motherlode * d / round2.deployed winning_square % 2 ^ 64
          else orePair.1
        .ok ⟨rewards_sol, rewards_ore, round2, some winning_square⟩
    else
      .ok ⟨0, 0, round, some winning_square⟩
  | none =>
    if round.total_deployed ≠ 0 then .error ()
    else
      let refund := (List.range 25).foldl (fun a i => a + miner1.deployed i) 0
      .ok ⟨refund, 0, round, none⟩

/-- Shallow embedding of `process_checkpoint` (checkpoint.rs).  Follows the
source's control flow: idempotence short-circuit; forfeit on a reclaimed
(empty) round account with matching seeds; no-op when the round is current,
mismatched or not finalized; forfeit on expiry; bot-fee release inside the
final window; the reward-calculation block; then the commit tail. -/
def process_checkpoint (inp : CheckpointInput) : Except Unit CheckpointResult :=
  let miner := inp.miner
  if miner.checkpoint_id = miner.round_id then
    .ok ⟨miner, inp.round, inp.treasury, 0, 0, 0⟩
  else
    match inp.round with
    | none =>
      if inp.seeds_ok then
        .ok ⟨{ miner with checkpoint_id := miner.round_id }, none, inp.treasury, 0, 0, 0⟩
      else .error ()
    | some round =>
      if round.id = inp.board_round_id ∨ round.id ≠ miner.round_id ∨
          ¬ round.is_finalized then
        .ok ⟨miner, some round, inp.treasury, 0, 0, 0⟩
      else if round.expires_at ≤ inp.slot then
        .ok ⟨{ miner with checkpoint_id := miner.round_id }, some round, inp.treasury, 0, 0, 0⟩
      else
        match checkpointRewards (botFeePair miner round.expires_at inp.slot).2 round with
        | .error e => .error e
        | .ok rw =>
          .ok (checkpointCommit inp.treasury (botFeePair miner round.expires_at inp.slot).2
            rw.round rw.winning_square_for_skill rw.rewards_sol rw.rewards_ore
            (botFeePair miner round.expires_at inp.slot).1)

/-!
DeploymentEngine: shallow embedding of `process_deploy`
(src/program/src/deploy.rs), manual (non-automation) path.  The automation
convenience layer, the v0.5 storage migration branch and the lamport
transfers are outside the modelled core per the specification's scope; an
empty round or miner account is modelled as `none` and freshly initialized
exactly as the source does.
-/

/-- Fresh round record created on the first deploy of a round
(deploy.rs lines 38-68). -/
def newRound (board_round_id signer : Nat) : Round where
  id := board_round_id
  deployed := fun _ => 0
  slot_hash := fun _ => 0
  count := fun _ => 0
  expires_at := U64_MAX
  rent_payer := signer
  motherlode := 0
  top_miner := 0
  top_miner_reward := 0
  total_deployed := 0
  total_vaulted := 0
  total_winnings := 0
  winning_square := 0
  bonus_squares := fun _ => 0
  commit_start_slot := 0
  reveal_start_slot := 0
  revealed_count := fun _ => 0
  total_reveals := 0

/-- Fresh miner record created on first deploy (deploy.rs lines 159-177);
fields not listed there are zero-initialized by account creation. -/
def newMiner (signer : Nat) : Miner where
  authority := signer
  deployed := fun _ => 0
  cumulative := fun _ => 0
  checkpoint_fee := 0
  checkpoint_id := 0
  last_claim_ore_at := 0
  last_claim_sol_at := 0
  rewards_factor := 0
  rewards_sol := 0
  rewards_ore := 0
  refined_ore := 0
  round_id := 0
  lifetime_rewards_sol := 0
  lifetime_rewards_ore := 0
  skill_score := 0
  prediction := 0
  streak := 0
  last_prediction_round := 0
  challenge_count := 0
  challenge_wins := 0

/-- Accumulator of the per-square deployment loop. -/
structure DeployLoopState where
  miner : Miner
  round : Round
  total_amount : Nat
  total_squares : Nat

/-- One iteration of the deployment loop (deploy.rs lines 207-237): skip
unselected squares and squares the miner already funded; otherwise snapshot
the pre-deposit cumulative stake, record the deposit, and bump the round's
per-square total, grand total and participant count. -/
def deploySquare (amount : Nat) (st : DeployLoopState) (square_id : Nat)
    (should_deploy : Bool) : DeployLoopState :=
  if ¬ should_deploy then st
  else if st.miner.deployed square_id > 0 then st
  else
    { miner := { st.miner with
        cumulative := Function.update st.miner.cumulative square_id
          (st.round.deployed square_id)
        deployed := Function.update st.miner.deployed square_id amount }
      round := { st.round with
        deployed := Function.update st.round.deployed square_id
          (st.round.deployed square_id + amount)
        total_deployed := st.round.total_deployed + amount
        count := Function.update st.round.count square_id
          (st.round.count square_id + 1) }
      total_amount := st.total_amount + amount
      total_squares := st.total_squares + 1 }

/-- Inputs of one manual deploy call. -/
structure DeployInput where
  slot : Nat
  signer : Nat
  amount : Nat
  mask : Nat
  board : Board
  round : Option Round
  miner : Option Miner

/-- Result of a successful deploy call. -/
structure DeployResult where
  board : Board
  round : Round
  miner : Miner
  total_amount : Nat
  total_squares : Nat

/-- Round-start step (deploy.rs lines 107-116): on the very first deploy of
a round (board window unset) the current slot becomes the round's start and
the commit/reveal/end boundaries and the expiry are fixed from it. -/
def startRoundPair (board : Board) (round : Round) (slot : Nat) : Board × Round :=
  if board.end_slot = U64_MAX then
    let commit_start := slot + Round.DEPLOY_PHASE_SLOTS
    let reveal_start := commit_start + Round.COMMIT_PHASE_SLOTS
    let end_slot := reveal_start + Round.REVEAL_PHASE_SLOTS
    ({ board with start_slot := slot, end_slot := end_slot },
      { round with
        commit_start_slot := commit_start
        reveal_start_slot := reveal_start
        expires_at := end_slot + ONE_DAY_SLOTS })
  else (board, round)

/-- Shallow embedding of `process_deploy` (deploy.rs), manual path.  Guard:
the board's round window is unset (`end_slot = u64::MAX`) or the current
slot lies within `[start_slot, end_slot)`.  Then: create or validate the
round account; on the very first deploy fix the phase boundaries; create or
validate the miner account; reset the miner into the new round (requiring
the prior round settled); run the per-square loop over the 25-bit mask; and
escrow the checkpoint fee when empty. -/
def process_deploy (inp : DeployInput) : Except Unit DeployResult :=
  if ¬ (inp.board.end_slot = U64_MAX ∨
      (inp.board.start_slot ≤ inp.slot ∧ inp.slot < inp.board.end_slot)) then
    .error ()
  else
    let round0 := match inp.round with
      | none => newRound inp.board.round_id inp.signer
      | some r => r
    if round0.id ≠ inp.board.round_id then .error ()
    else
      let board := (startRoundPair inp.board round0 inp.slot).1
      let round := (startRoundPair inp.board round0 inp.slot).2
      let miner0 := match inp.miner with
        | none => newMiner inp.signer
        | some m => m
      if miner0.authority ≠ inp.signer then .error ()
      else if miner0.round_id != round.id && miner0.checkpoint_id != miner0.round_id then
        .error ()
      else
        let miner1 :=
          if miner0.round_id ≠ round.id then
            { miner0 with
              deployed := fun _ => 0
              cumulative := round.deployed
              round_id := round.id }
          else miner0
        let st := (List.range 25).foldl
          (fun st i => deploySquare inp.amount st i (inp.mask.testBit i))
          ⟨miner1, round, 0, 0⟩
        let miner2 :=
          if st.miner.checkpoint_fee = 0 then
            { st.miner with checkpoint_fee := CHECKPOINT_FEE }
          else st.miner
        .ok ⟨board, st.round, miner2, st.total_amount, st.total_squares⟩

/-!
Helper lemmas about the embedded operations.
-/

/-- A finalized round's rng is the XOR of its slot-hash chunks. -/
theorem Round.rng_eq_some (r : Round) (h : r.is_finalized = true) :
    r.rng = some r.rngValue := by
  unfold Round.rng
  simp [h]

/-- Evaluating a prediction never changes the claimable SOL balance. -/
theorem Miner.evaluate_prediction_rewards_sol (m : Miner) (w rid : Nat) :
    (m.evaluate_prediction w rid).2.rewards_sol = m.rewards_sol := by
  unfold Miner.evaluate_prediction
  split
  · rfl
  · split <;> rfl

/-- Evaluating a prediction never changes the claimable token balance. -/
theorem Miner.evaluate_prediction_rewards_ore (m : Miner) (w rid : Nat) :
    (m.evaluate_prediction w rid).2.rewards_ore = m.rewards_ore := by
  unfold Miner.evaluate_prediction
  split
  · rfl
  · split <;> rfl

/-- With no prediction recorded for the round, evaluation resets the streak
and returns the neutral multiplier 100. -/
theorem Miner.evaluate_prediction_of_none (m : Miner) (w rid : Nat)
    (h : m.last_prediction_round ≠ rid ∨ m.prediction = Miner.NO_PREDICTION) :
    m.evaluate_prediction w rid = (100, { m with streak := 0 }) := by
  unfold Miner.evaluate_prediction
  exact if_pos h

/-- Pulling index rewards never changes the claimable SOL balance. -/
theorem Miner.update_rewards_rewards_sol (m : Miner) (t : Treasury) :
    (m.update_rewards t).rewards_sol = m.rewards_sol := by
  unfold Miner.update_rewards
  split <;> rfl

/-- Pulling index rewards never changes the claimable token balance. -/
theorem Miner.update_rewards_rewards_ore (m : Miner) (t : Treasury) :
    (m.update_rewards t).rewards_ore = m.rewards_ore := by
  unfold Miner.update_rewards
  split <;> rfl

/-!
C2 — settlement idempotence.
-/

/-- C2: Settlement is idempotent: when the miner's `checkpoint_id` already
equals its `round_id`, `process_checkpoint` returns successfully, credits
nothing, and leaves the miner, round and treasury records exactly as they
were. -/
theorem claim_C2_checkpoint_idempotent (inp : CheckpointInput)
    (h : inp.miner.checkpoint_id = inp.miner.round_id) :
    process_checkpoint inp = .ok ⟨inp.miner, inp.round, inp.treasury, 0, 0, 0⟩ := by
  unfold process_checkpoint
  simp [h]

/-- Concrete settled miner: a fresh account of authority 7 (both ids zero). -/
def minerSettled : Miner := newMiner 7

/-- Witness for C2 at a concrete settled state. -/
theorem claim_C2_checkpoint_idempotent_witness :
    process_checkpoint ⟨0, 5, none, false, minerSettled, ⟨0, 0, 0⟩⟩ =
      .ok ⟨minerSettled, none, ⟨0, 0, 0⟩, 0, 0, 0⟩ :=
  claim_C2_checkpoint_idempotent ⟨0, 5, none, false, minerSettled, ⟨0, 0, 0⟩⟩ rfl

/-!
C8 — forfeiture is not an error.
-/

/-- C8: Forfeiture is not an error: a participant not yet settled
(`checkpoint_id < round_id`) whose round account was already reclaimed
(empty account passing the seeds check for its round id), or whose matching
finalized, non-current round has expired (`now ≥ expires_at`), is settled
successfully with `checkpoint_id` advanced to `round_id`, zero payout, and
every balance and record otherwise untouched. -/
theorem claim_C8_forfeit_not_error (inp : CheckpointInput)
    (hunsettled : inp.miner.checkpoint_id < inp.miner.round_id)
    (hforfeit :
      (inp.round = none ∧ inp.seeds_ok = true) ∨
      (∃ r, inp.round = some r ∧ r.id ≠ inp.board_round_id ∧
        r.id = inp.miner.round_id ∧ r.is_finalized = true ∧ r.expires_at ≤ inp.slot)) :
    process_checkpoint inp =
      .ok ⟨{ inp.miner with checkpoint_id := inp.miner.round_id }, inp.round,
        inp.treasury, 0, 0, 0⟩ := by
  have hne : inp.miner.checkpoint_id ≠ inp.miner.round_id := Nat.ne_of_lt hunsettled
  unfold process_checkpoint
  rcases hforfeit with ⟨h1, h2⟩ | ⟨r, hr, hb, hm, hf, he⟩
  · rw [h1]
    simp [hne, h2]
  · rw [hr]
    simp [hne, hb, hm, hf, he]
    intro hcontra
    exact absurd hcontra (hm ▸ hb)

/-- Concrete unsettled miner pointing at round 3. -/
def minerUnsettled : Miner := { newMiner 7 with round_id := 3, checkpoint_id := 2 }

/-- Witness for C8 at a concrete reclaimed-round state. -/
theorem claim_C8_forfeit_not_error_witness :
    process_checkpoint ⟨0, 5, none, true, minerUnsettled, ⟨0, 0, 0⟩⟩ =
      .ok ⟨{ minerUnsettled with checkpoint_id := minerUnsettled.round_id }, none,
        ⟨0, 0, 0⟩, 0, 0, 0⟩ :=
  claim_C8_forfeit_not_error ⟨0, 5, none, true, minerUnsettled, ⟨0, 0, 0⟩⟩
    (by decide) (Or.inl ⟨rfl, rfl⟩)

/-!
C6 — refund of a never-finalized round: dead code.
-/

/-- Any checkpoint against a present but not-finalized round is a no-op:
the guard at checkpoint.rs line 42 returns before the refund branch at
lines 138-150, which is reachable only when `Round::rng` is `None`, i.e.
exactly when the round is not finalized.  So the refund can never occur. -/
theorem checkpoint_not_finalized_noop (inp : CheckpointInput) (r : Round)
    (hr : inp.round = some r) (hfin : r.is_finalized = false)
    (hne : inp.miner.checkpoint_id ≠ inp.miner.round_id) :
    process_checkpoint inp = .ok ⟨inp.miner, inp.round, inp.treasury, 0, 0, 0⟩ := by
  unfold process_checkpoint
  rw [hr]
  simp [hne, hfin]

/-- Concrete never-finalized round of id 3 (all-zero slot hash). -/
def roundNoSeed : Round := { newRound 3 9 with expires_at := 1000000 }

/-- Concrete miner with 100 units staked on square 0 of round 3, unsettled. -/
def minerStakedNoSeed : Miner := { newMiner 7 with
  round_id := 3
  checkpoint_id := 2
  deployed := Function.update (fun _ => 0) 0 100 }

/-- C6, failing input: settling the staked miner against its never-finalized
round returns success with no refund, no balance change, and even
`checkpoint_id` left behind — the claimed full-stake refund does not happen
(the refund branch of checkpoint.rs is unreachable). -/
theorem claim_C6_refund_branch_dead :
    process_checkpoint ⟨100, 5, some roundNoSeed, true, minerStakedNoSeed, ⟨0, 0, 0⟩⟩ =
      .ok ⟨minerStakedNoSeed, some roundNoSeed, ⟨0, 0, 0⟩, 0, 0, 0⟩ ∧
    (List.range 25).foldl (fun a i => a + minerStakedNoSeed.deployed i) 0 = 100 ∧
    roundNoSeed.rng = none ∧
    minerStakedNoSeed.checkpoint_id ≠ minerStakedNoSeed.round_id :=
  ⟨checkpoint_not_finalized_noop _ roundNoSeed rfl rfl (by decide), by decide, rfl,
    by decide⟩

/-!
Further helper lemmas for the settlement-path claims.
-/

/-- The bot-fee step does not touch the deployed array. -/
theorem botFeePair_snd_deployed (m : Miner) (e s : Nat) :
    (botFeePair m e s).2.deployed = m.deployed := by
  unfold botFeePair
  split <;> rfl

/-- The bot-fee step does not touch the cumulative snapshots. -/
theorem botFeePair_snd_cumulative (m : Miner) (e s : Nat) :
    (botFeePair m e s).2.cumulative = m.cumulative := by
  unfold botFeePair
  split <;> rfl

/-- The bot-fee step does not touch the claimable SOL balance. -/
theorem botFeePair_snd_rewards_sol (m : Miner) (e s : Nat) :
    (botFeePair m e s).2.rewards_sol = m.rewards_sol := by
  unfold botFeePair
  split <;> rfl

/-- The bot-fee step does not touch the claimable token balance. -/
theorem botFeePair_snd_rewards_ore (m : Miner) (e s : Nat) :
    (botFeePair m e s).2.rewards_ore = m.rewards_ore := by
  unfold botFeePair
  split <;> rfl

/-- The bot-fee step does not touch the stored prediction. -/
theorem botFeePair_snd_prediction (m : Miner) (e s : Nat) :
    (botFeePair m e s).2.prediction = m.prediction := by
  unfold botFeePair
  split <;> rfl

/-- The bot-fee step does not touch the prediction round. -/
theorem botFeePair_snd_last_prediction_round (m : Miner) (e s : Nat) :
    (botFeePair m e s).2.last_prediction_round = m.last_prediction_round := by
  unfold botFeePair
  split <;> rfl

/-- Pulling index rewards does not touch the stored prediction. -/
theorem Miner.update_rewards_prediction (m : Miner) (t : Treasury) :
    (m.update_rewards t).prediction = m.prediction := by
  unfold Miner.update_rewards
  split <;> rfl

/-- Pulling index rewards does not touch the prediction round. -/
theorem Miner.update_rewards_last_prediction_round (m : Miner) (t : Treasury) :
    (m.update_rewards t).last_prediction_round = m.last_prediction_round := by
  unfold Miner.update_rewards
  split <;> rfl

/-- The commit tail reports exactly the SOL amount it was handed. -/
theorem checkpointCommit_rewards_sol (t : Treasury) (m : Miner) (rd : Round)
    (ws : Option Nat) (sol ore bf : Nat) :
    (checkpointCommit t m rd ws sol ore bf).rewards_sol = sol := rfl

/-- The commit tail adds exactly the handed SOL amount to the miner's
claimable SOL balance. -/
theorem checkpointCommit_miner_rewards_sol (t : Treasury) (m : Miner) (rd : Round)
    (ws : Option Nat) (sol ore bf : Nat) :
    (checkpointCommit t m rd ws sol ore bf).miner.rewards_sol = m.rewards_sol + sol := by
  unfold checkpointCommit
  match ws with
  | none => simp [Miner.update_rewards_rewards_sol]
  | some w =>
    simp only []
    split
    · simp [Miner.evaluate_prediction_rewards_sol, Miner.update_rewards_rewards_sol]
    · simp [Miner.evaluate_prediction_rewards_sol, Miner.update_rewards_rewards_sol]

/-- With no prediction recorded for the settled round the skill multiplier
is neutral, so the commit tail passes the token amount through unboosted and
adds exactly it to the miner's claimable token balance. -/
theorem checkpointCommit_neutral_ore (t : Treasury) (m : Miner) (rd : Round)
    (w sol ore bf : Nat)
    (h : m.last_prediction_round ≠ rd.id ∨ m.prediction = Miner.NO_PREDICTION) :
    (checkpointCommit t m rd (some w) sol ore bf).rewards_ore = ore ∧
    (checkpointCommit t m rd (some w) sol ore bf).miner.rewards_ore =
      m.rewards_ore + ore := by
  have h2 : (m.update_rewards t).last_prediction_round ≠ rd.id ∨
      (m.update_rewards t).prediction = Miner.NO_PREDICTION := by
    rw [Miner.update_rewards_prediction, Miner.update_rewards_last_prediction_round]
    exact h
  unfold checkpointCommit
  simp only [Miner.evaluate_prediction_of_none _ _ _ h2]
  norm_num
  simp [Miner.update_rewards_rewards_ore]

/-- A 128-bit pro-rata share `x * d / D` narrows to u64 without loss when
`d ≤ D` and `x` is a u64 value. -/
theorem prorata_no_trunc (x D d : Nat) (hD : 0 < D) (hdD : d ≤ D)
    (hx : x < 2 ^ 64) :
    x * d / D % 2 ^ 64 = x * d / D := by
  apply Nat.mod_eq_of_lt
  have h1 : x * d ≤ x * D := Nat.mul_le_mul_left x hdD
  have h2 : x * d / D ≤ x * D / D := Nat.div_le_div_right h1
  have h3 : x * D / D = x := Nat.mul_div_cancel _ hD
  omega

/-- The stake payout's 128-bit quotient narrows to u64 without loss when the
deposit is covered by the round aggregate and the winnings are a u64. -/
theorem stakePayout_no_trunc (tw D d : Nat) (hD : 0 < D) (hdD : d ≤ D)
    (htw : tw < 2 ^ 64) :
    stakePayout tw D d = d - max (d / 100) 1 + tw * d / D := by
  unfold stakePayout
  congr 1
  exact prorata_no_trunc tw D d hD hdD htw

/-- Under the settlement-path guards (matching, finalized, unexpired,
non-current round of an unsettled miner) the checkpoint reduces to the
bot-fee step, the reward block and the commit tail. -/
theorem process_checkpoint_settle_phase (inp : CheckpointInput) (r : Round)
    (hr : inp.round = some r)
    (hcp : inp.miner.checkpoint_id ≠ inp.miner.round_id)
    (hcur : r.id ≠ inp.board_round_id)
    (hid : r.id = inp.miner.round_id)
    (hfin : r.is_finalized = true)
    (hexp : inp.slot < r.expires_at) :
    process_checkpoint inp =
      match checkpointRewards (botFeePair inp.miner r.expires_at inp.slot).2 r with
      | .error e => .error e
      | .ok rw =>
        .ok (checkpointCommit inp.treasury (botFeePair inp.miner r.expires_at inp.slot).2
          rw.round rw.winning_square_for_skill rw.rewards_sol rw.rewards_ore
          (botFeePair inp.miner r.expires_at inp.slot).1) := by
  have hg : ¬ (r.id = inp.board_round_id ∨ r.id ≠ inp.miner.round_id ∨
      ¬ r.is_finalized = true) := by
    rintro (h1 | h2 | h3)
    · exact hcur h1
    · exact h2 hid
    · exact h3 hfin
  have hnexp : ¬ (r.expires_at ≤ inp.slot) := Nat.not_le.mpr hexp
  unfold process_checkpoint
  rw [hr]
  simp only [if_neg hcp, if_neg hg, if_neg hnexp]

/-- Reward block, winning-deposit case, SOL side: success with the stake
payout and the winning square handed to the skill evaluation. -/
theorem checkpointRewards_win_sol (m1 : Miner) (r : Round) (rv : Nat)
    (hrng : r.rng = some rv)
    (hd : 0 < m1.deployed r.winning_square)
    (hsane : ¬ r.deployed r.winning_square < m1.deployed r.winning_square) :
    ∃ out, checkpointRewards m1 r = .ok out ∧
      out.rewards_sol =
        stakePayout r.total_winnings (r.deployed r.winning_square)
          (m1.deployed r.winning_square) ∧
      out.winning_square_for_skill = some r.winning_square := by
  unfold checkpointRewards
  rw [hrng]
  simp only [Round.get_winning_square]
  rw [if_pos hd, if_neg hsane]
  exact ⟨_, rfl, rfl, rfl⟩

/-- Reward block, winning-deposit case with no motherlode, token side: the
split branch pays the pro-rata share and the sampled branch pays the full
reward exactly when the sample falls inside the miner's cumulative slice. -/
theorem checkpointRewards_win_ore (m1 : Miner) (r : Round) (rv : Nat)
    (hrng : r.rng = some rv)
    (hd : 0 < m1.deployed r.winning_square)
    (hsane : ¬ r.deployed r.winning_square < m1.deployed r.winning_square)
    (hml : r.motherlode = 0) :
    ∃ out, checkpointRewards m1 r = .ok out ∧
      out.rewards_ore =
        (if r.top_miner = SPLIT_ADDRESS then
          r.top_miner_reward * m1.deployed r.winning_square /
            r.deployed r.winning_square % 2 ^ 64
        else if m1.cumulative r.winning_square ≤ r.top_miner_sample rv r.winning_square ∧
            r.top_miner_sample rv r.winning_square <
              m1.cumulative r.winning_square + m1.deployed r.winning_square then
          r.top_miner_reward
        else 0) ∧
      out.round.id = r.id ∧
      out.winning_square_for_skill = some r.winning_square := by
  unfold checkpointRewards
  rw [hrng]
  simp only [Round.get_winning_square]
  rw [if_pos hd, if_neg hsane]
  by_cases hsplit : r.top_miner = SPLIT_ADDRESS
  · refine ⟨_, rfl, ?_, ?_, rfl⟩
    · simp only [if_pos hsplit, hml]
      norm_num
    · simp only [if_pos hsplit]
  · by_cases hint : m1.cumulative r.winning_square ≤ r.top_miner_sample rv r.winning_square ∧
        r.top_miner_sample rv r.winning_square <
          m1.cumulative r.winning_square + m1.deployed r.winning_square
    · refine ⟨_, rfl, ?_, ?_, rfl⟩
      · simp only [if_neg hsplit, if_pos hint, hml]
        norm_num
      · simp only [if_neg hsplit, if_pos hint]
    · refine ⟨_, rfl, ?_, ?_, rfl⟩
      · simp only [if_neg hsplit, if_neg hint, hml]
        norm_num
      · simp only [if_neg hsplit, if_neg hint]

/-!
C1 — stake payout of a winning deposit.
-/

/-- C1: settling an unsettled participant against its matching, finalized,
unexpired, non-current round, with a positive deposit `d` on the winning
square covered by the round aggregate, credits a stake payout of exactly
`d - max(d/100, 1) + floor(total_winnings * d / deployed[w])`, added to the
participant's claimable SOL balance. -/
theorem claim_C1_stake_payout (inp : CheckpointInput) (r : Round)
    (hr : inp.round = some r)
    (hcp : inp.miner.checkpoint_id ≠ inp.miner.round_id)
    (hcur : r.id ≠ inp.board_round_id)
    (hid : r.id = inp.miner.round_id)
    (hfin : r.is_finalized = true)
    (hexp : inp.slot < r.expires_at)
    (hd : 0 < inp.miner.deployed r.winning_square)
    (hsane : inp.miner.deployed r.winning_square ≤ r.deployed r.winning_square)
    (htw : r.total_winnings < 2 ^ 64) :
    ∃ res, process_checkpoint inp = .ok res ∧
      res.rewards_sol =
        inp.miner.deployed r.winning_square -
            max (inp.miner.deployed r.winning_square / 100) 1 +
          r.total_winnings * inp.miner.deployed r.winning_square /
            r.deployed r.winning_square ∧
      res.miner.rewards_sol = inp.miner.rewards_sol + res.rewards_sol := by
  have hrng : r.rng = some r.rngValue := Round.rng_eq_some r hfin
  have hnsane : ¬ r.deployed r.winning_square < inp.miner.deployed r.winning_square :=
    Nat.not_lt.mpr hsane
  have hd1 : 0 < (botFeePair inp.miner r.expires_at inp.slot).2.deployed r.winning_square := by
    rw [botFeePair_snd_deployed]
    exact hd
  have hnsane1 : ¬ r.deployed r.winning_square <
      (botFeePair inp.miner r.expires_at inp.slot).2.deployed r.winning_square := by
    rw [botFeePair_snd_deployed]
    exact hnsane
  obtain ⟨out, hout, hsol, hws⟩ :=
    checkpointRewards_win_sol (botFeePair inp.miner r.expires_at inp.slot).2 r
      r.rngValue hrng hd1 hnsane1
  rw [process_checkpoint_settle_phase inp r hr hcp hcur hid hfin hexp, hout]
  refine ⟨_, rfl, ?_, ?_⟩
  · rw [checkpointCommit_rewards_sol, hsol, botFeePair_snd_deployed]
    exact stakePayout_no_trunc _ _ _ (Nat.lt_of_lt_of_le hd hsane) hsane htw
  · rw [checkpointCommit_miner_rewards_sol, checkpointCommit_rewards_sol,
      botFeePair_snd_rewards_sol]

/-- Concrete winning settlement scenario: miner of authority 7 with 100 units
on square 2 of round 3; round 3 finalized (slot-hash byte 1), square 2 winning
with aggregate 100, winnings 50, lottery reward 1000, no motherlode. -/
def minerWin : Miner := { newMiner 7 with
  round_id := 3
  checkpoint_id := 2
  deployed := Function.update (fun _ => 0) 2 100
  cumulative := Function.update (fun _ => 0) 2 0 }

/-- The finalized round of the concrete winning settlement scenario. -/
def roundWin : Round := { newRound 3 9 with
  slot_hash := Function.update (fun _ => 0) 0 1
  deployed := Function.update (fun _ => 0) 2 100
  expires_at := 1000000
  winning_square := 2
  total_winnings := 50
  top_miner_reward := 1000 }

/-- The checkpoint input of the concrete winning settlement scenario. -/
def inpWin : CheckpointInput := ⟨100, 5, some roundWin, true, minerWin, ⟨0, 0, 0⟩⟩

/-- Witness for C1 at the concrete winning settlement scenario. -/
theorem claim_C1_stake_payout_witness :
    ∃ res, process_checkpoint inpWin = .ok res ∧
      res.rewards_sol =
        inpWin.miner.deployed roundWin.winning_square -
            max (inpWin.miner.deployed roundWin.winning_square / 100) 1 +
          roundWin.total_winnings * inpWin.miner.deployed roundWin.winning_square /
            roundWin.deployed roundWin.winning_square ∧
      res.miner.rewards_sol = inpWin.miner.rewards_sol + res.rewards_sol :=
  claim_C1_stake_payout inpWin roundWin rfl (by decide) (by decide) rfl (by decide)
    (by decide) (by decide) (by decide) (by decide)

/-!
C4 — token lottery of a winning deposit.
-/

/-- C4: in the same settlement situation as C1, with no motherlode and no
prediction recorded for the round (the skill multiplier is neutral), the
token payout is the pro-rata share `floor(top_miner_reward * d / deployed[w])`
when the round is marked split, and otherwise the full `top_miner_reward`
exactly when the single sample `s` (drawn over `[0, deployed[w])` from the
round's seed) satisfies `cumulative[w] ≤ s < cumulative[w] + d`; the amount
is added to the participant's claimable token balance. -/
theorem claim_C4_token_lottery (inp : CheckpointInput) (r : Round)
    (hr : inp.round = some r)
    (hcp : inp.miner.checkpoint_id ≠ inp.miner.round_id)
    (hcur : r.id ≠ inp.board_round_id)
    (hid : r.id = inp.miner.round_id)
    (hfin : r.is_finalized = true)
    (hexp : inp.slot < r.expires_at)
    (hd : 0 < inp.miner.deployed r.winning_square)
    (hsane : inp.miner.deployed r.winning_square ≤ r.deployed r.winning_square)
    (hml : r.motherlode = 0)
    (hpred : inp.miner.last_prediction_round ≠ r.id ∨
      inp.miner.prediction = Miner.NO_PREDICTION)
    (htmr : r.top_miner_reward < 2 ^ 64) :
    ∃ res, process_checkpoint inp = .ok res ∧
      r.top_miner_sample r.rngValue r.winning_square < r.deployed r.winning_square ∧
      res.rewards_ore =
        (if r.top_miner = SPLIT_ADDRESS then
          r.top_miner_reward * inp.miner.deployed r.winning_square /
            r.deployed r.winning_square
        else if inp.miner.cumulative r.winning_square ≤
              r.top_miner_sample r.rngValue r.winning_square ∧
            r.top_miner_sample r.rngValue r.winning_square <
              inp.miner.cumulative r.winning_square +
                inp.miner.deployed r.winning_square then
          r.top_miner_reward
        else 0) ∧
      res.miner.rewards_ore = inp.miner.rewards_ore + res.rewards_ore := by
  have hrng : r.rng = some r.rngValue := Round.rng_eq_some r hfin
  have hD : 0 < r.deployed r.winning_square := Nat.lt_of_lt_of_le hd hsane
  have hd1 : 0 < (botFeePair inp.miner r.expires_at inp.slot).2.deployed r.winning_square := by
    rw [botFeePair_snd_deployed]
    exact hd
  have hnsane1 : ¬ r.deployed r.winning_square <
      (botFeePair inp.miner r.expires_at inp.slot).2.deployed r.winning_square := by
    rw [botFeePair_snd_deployed]
    exact Nat.not_lt.mpr hsane
  obtain ⟨out, hout, hore, hrid, hws⟩ :=
    checkpointRewards_win_ore (botFeePair inp.miner r.expires_at inp.slot).2 r
      r.rngValue hrng hd1 hnsane1 hml
  have hsamp : r.top_miner_sample r.rngValue r.winning_square <
      r.deployed r.winning_square := by
    unfold Round.top_miner_sample
    rw [if_neg (Nat.pos_iff_ne_zero.mp hD)]
    exact Nat.mod_lt _ hD
  have hpred1 : (botFeePair inp.miner r.expires_at inp.slot).2.last_prediction_round ≠
        out.round.id ∨
      (botFeePair inp.miner r.expires_at inp.slot).2.prediction = Miner.NO_PREDICTION := by
    rw [botFeePair_snd_prediction, botFeePair_snd_last_prediction_round, hrid]
    exact hpred
  have hcn := checkpointCommit_neutral_ore inp.treasury
    (botFeePair inp.miner r.expires_at inp.slot).2 out.round r.winning_square
    out.rewards_sol out.rewards_ore (botFeePair inp.miner r.expires_at inp.slot).1 hpred1
  rw [process_checkpoint_settle_phase inp r hr hcp hcur hid hfin hexp, hout]
  refine ⟨_, rfl, hsamp, ?_, ?_⟩
  · rw [hws]
    rw [hcn.1, hore, botFeePair_snd_deployed, botFeePair_snd_cumulative]
    by_cases hsplit : r.top_miner = SPLIT_ADDRESS
    · rw [if_pos hsplit, if_pos hsplit,
        prorata_no_trunc _ _ _ hD hsane htmr]
    · rw [if_neg hsplit, if_neg hsplit]
  · rw [hws, hcn.1, hcn.2, botFeePair_snd_rewards_ore]

/-- Witness for C4 at the concrete winning settlement scenario (non-split
round; the sample lands inside the single participant's full slice). -/
theorem claim_C4_token_lottery_witness :
    ∃ res, process_checkpoint inpWin = .ok res ∧
      roundWin.top_miner_sample roundWin.rngValue roundWin.winning_square <
        roundWin.deployed roundWin.winning_square ∧
      res.rewards_ore =
        (if roundWin.top_miner = SPLIT_ADDRESS then
          roundWin.top_miner_reward * inpWin.miner.deployed roundWin.winning_square /
            roundWin.deployed roundWin.winning_square
        else if inpWin.miner.cumulative roundWin.winning_square ≤
              roundWin.top_miner_sample roundWin.rngValue roundWin.winning_square ∧
            roundWin.top_miner_sample roundWin.rngValue roundWin.winning_square <
              inpWin.miner.cumulative roundWin.winning_square +
                inpWin.miner.deployed roundWin.winning_square then
          roundWin.top_miner_reward
        else 0) ∧
      res.miner.rewards_ore = inpWin.miner.rewards_ore + res.rewards_ore :=
  claim_C4_token_lottery inpWin roundWin rfl (by decide) (by decide) rfl (by decide)
    (by decide) (by decide) (by decide) rfl (Or.inl (by decide)) (by decide)

/-!
C9 — conservation of stake payouts.
-/

/-- Sum of two quotients is at most the quotient of the sum. -/
theorem nat_div_add_div_le (a b D : Nat) (hD : 0 < D) :
    a / D + b / D ≤ (a + b) / D := by
  rw [Nat.le_div_iff_mul_le hD]
  calc (a / D + b / D) * D = a / D * D + b / D * D := by ring
  _ ≤ a + b := Nat.add_le_add (Nat.div_mul_le_self a D) (Nat.div_mul_le_self b D)

/-- Each settled deposit pays out at most itself plus its exact pro-rata
share, and the shares telescope into the collective share. -/
theorem stakePayout_sum_le (tw D : Nat) (hD : 0 < D) (ds : List Nat) :
    (ds.map (stakePayout tw D)).sum ≤ ds.sum + tw * ds.sum / D := by
  induction ds with
  | nil => simp
  | cons d t ih =>
    simp only [List.map_cons, List.sum_cons]
    have h1 : stakePayout tw D d ≤ d + tw * d / D := by
      unfold stakePayout
      exact Nat.add_le_add (Nat.sub_le _ _) (Nat.mod_le _ _)
    calc stakePayout tw D d + (t.map (stakePayout tw D)).sum
        ≤ (d + tw * d / D) + (t.sum + tw * t.sum / D) := Nat.add_le_add h1 ih
      _ = (d + t.sum) + (tw * d / D + tw * t.sum / D) := by ring
      _ ≤ (d + t.sum) + (tw * d + tw * t.sum) / D :=
        Nat.add_le_add_left (nat_div_add_div_le _ _ _ hD) _
      _ = (d + t.sum) + tw * (d + t.sum) / D := by rw [Nat.mul_add]

/-- C9: Conservation: for any list of recorded deposits on the winning
square whose sum is at most the round's aggregate `D` there, the sum of the
stake payouts settlement computes for them never exceeds
`total_winnings + D`. -/
theorem claim_C9_conservation (tw D : Nat) (ds : List Nat) (hD : 0 < D)
    (hsum : ds.sum ≤ D) :
    (ds.map (stakePayout tw D)).sum ≤ tw + D := by
  calc (ds.map (stakePayout tw D)).sum
      ≤ ds.sum + tw * ds.sum / D := stakePayout_sum_le tw D hD ds
    _ ≤ D + tw * D / D :=
      Nat.add_le_add hsum (Nat.div_le_div_right (Nat.mul_le_mul_left tw hsum))
    _ = D + tw := by rw [Nat.mul_div_cancel _ hD]
    _ = tw + D := Nat.add_comm D tw

/-- Witness for C9: deposits 1, 2, 3 on a winning square holding 6 units,
with 10 units of winnings. -/
theorem claim_C9_conservation_witness :
    (([1, 2, 3] : List Nat).map (stakePayout 10 6)).sum ≤ 10 + 6 :=
  claim_C9_conservation 10 6 [1, 2, 3] (by decide) (by decide)

/-!
C5 — the skill multiplier formula.  The claim's score bonus is
`floor(log2(skill_score) * 0.3) * 5` with a real-number log2; the code's is
bit-length based: `((64 - leading_zeros) * 3 / 10) * 5`, i.e.
`((floor(log2 skill_score) + 1) * 3 / 10) * 5`.  They differ, e.g. at
`skill_score = 100` (claim: 5, code: 10).
-/

/-- Score bonus exactly as the claim words it:
`floor(log2(skill_score) * 0.3) * 5` when the score is positive, else 0,
with a true (real-valued) base-2 logarithm. -/
noncomputable def specScoreBonus (skill_score : Nat) : Nat :=
  if skill_score > 0 then
    5 * Nat.floor (Real.logb 2 (skill_score : ℝ) * (3 / 10))
  else 0

/-- Multiplier exactly as the claim words it:
`min(100 + score_bonus + streak_bonus, 150)` with the claim's score bonus
and `streak_bonus = min(streak, 10) * 2`. -/
noncomputable def specSkillMultiplier (skill_score streak : Nat) : Nat :=
  min (100 + specScoreBonus skill_score + min streak 10 * 2) 150

/-- The real-valued floor the claim's formula takes at score 100 is 1,
because `2 ^ 10 ≤ 100 ^ 3 < 2 ^ 20`. -/
theorem specScoreBonus_floor_at_100 :
    Nat.floor (Real.logb 2 (100 : ℝ) * (3 / 10)) = 1 := by
  have h100 : (0 : ℝ) < 100 := by norm_num
  have hb : (1 : ℝ) < 2 := by norm_num
  have hlow : (10 : ℝ) / 3 ≤ Real.logb 2 100 := by
    rw [Real.le_logb_iff_rpow_le hb h100]
    have h3 : ((2 : ℝ) ^ ((10 : ℝ) / 3)) ^ (3 : ℕ) = 1024 := by
      rw [← Real.rpow_natCast ((2 : ℝ) ^ ((10 : ℝ) / 3)) 3,
        ← Real.rpow_mul (by norm_num)]
      norm_num
    apply le_of_pow_le_pow_left₀ (by norm_num : (3 : ℕ) ≠ 0) (by norm_num : (0 : ℝ) ≤ 100)
    rw [h3]
    norm_num
  have hhigh : Real.logb 2 100 < (20 : ℝ) / 3 := by
    rw [Real.logb_lt_iff_lt_rpow hb h100]
    have h3 : ((2 : ℝ) ^ ((20 : ℝ) / 3)) ^ (3 : ℕ) = 1048576 := by
      rw [← Real.rpow_natCast ((2 : ℝ) ^ ((20 : ℝ) / 3)) 3,
        ← Real.rpow_mul (by norm_num)]
      norm_num
    apply lt_of_pow_lt_pow_left₀ 3 (le_of_lt (Real.rpow_pos_of_pos (by norm_num) _))
    rw [h3]
    norm_num
  have h0 : 0 ≤ Real.logb 2 (100 : ℝ) * (3 / 10) := by
    have := Real.logb_nonneg hb (by norm_num : (1 : ℝ) ≤ 100)
    linarith
  rw [Nat.floor_eq_iff h0]
  constructor
  · push_cast
    linarith
  · push_cast
    linarith

/-- C5, counterexample: at `skill_score = 100`, `streak = 0` the code's
multiplier is 110 while the claim's formula yields
`min(100 + floor(log2(100) * 0.3) * 5 + 0, 150) = 105`. -/
theorem claim_C5_counterexample :
    Miner.calculate_skill_multiplier { newMiner 0 with skill_score := 100 } ≠
      specSkillMultiplier 100 0 := by
  have h1 : Miner.calculate_skill_multiplier { newMiner 0 with skill_score := 100 } = 110 := by
    norm_num [Miner.calculate_skill_multiplier, u64SaturatingMul, u64LeadingZeros,
      U64_MAX, newMiner, Nat.log2, Miner.MAX_SKILL_MULTIPLIER]
  have h2 : specSkillMultiplier 100 0 = 105 := by
    unfold specSkillMultiplier specScoreBonus
    rw [if_pos (by norm_num)]
    norm_num [specScoreBonus_floor_at_100]
  rw [h1, h2]
  decide

/-- C5 as amended: the multiplier is the pure function
`min(100 + score_bonus + streak_bonus, 150)` of `skill_score` and `streak`,
with `streak_bonus = min(streak, 10) * 2` as claimed but with
`score_bonus = ((floor(log2 skill_score) + 1) * 3 / 10) * 5` (the score's
bit length, integer division) when `skill_score > 0`, else 0. -/
theorem claim_C5_amended_multiplier (m : Miner) (hs : m.skill_score < 2 ^ 64) :
    m.calculate_skill_multiplier =
      min (100 +
        (if m.skill_score = 0 then 0
          else (Nat.log2 m.skill_score + 1) * 3 / 10 * 5) +
        min m.streak 10 * 2) 150 := by
  unfold Miner.calculate_skill_multiplier Miner.MAX_SKILL_MULTIPLIER
  have hstreak : u64SaturatingMul (min m.streak 10) 2 = min m.streak 10 * 2 := by
    unfold u64SaturatingMul U64_MAX
    apply min_eq_left
    have h10 : min m.streak 10 ≤ 10 := min_le_right _ _
    omega
  rw [hstreak]
  by_cases h0 : m.skill_score = 0
  · rw [if_neg (by omega : ¬ m.skill_score > 0), if_pos h0]
  · have hl : Nat.log2 m.skill_score < 64 := (Nat.log2_lt h0).mpr hs
    have harith : 64 - (63 - Nat.log2 m.skill_score) = Nat.log2 m.skill_score + 1 := by
      omega
    have hsat : u64SaturatingMul ((Nat.log2 m.skill_score + 1) * 3 / 10) 5 =
        (Nat.log2 m.skill_score + 1) * 3 / 10 * 5 := by
      unfold u64SaturatingMul U64_MAX
      exact min_eq_left (by omega)
    rw [if_pos (Nat.pos_of_ne_zero h0), if_neg h0]
    unfold u64LeadingZeros
    rw [if_neg h0, harith, hsat]

/-- Witness for the amended C5 at `skill_score = 100`, `streak = 1`. -/
theorem claim_C5_amended_multiplier_witness :
    Miner.calculate_skill_multiplier { newMiner 0 with skill_score := 100, streak := 1 } =
      min (100 +
        (if ({ newMiner 0 with skill_score := 100, streak := 1 } : Miner).skill_score = 0
          then 0
          else (Nat.log2 ({ newMiner 0 with skill_score := 100, streak := 1 } : Miner).skill_score + 1)
            * 3 / 10 * 5) +
        min ({ newMiner 0 with skill_score := 100, streak := 1 } : Miner).streak 10 * 2) 150 :=
  claim_C5_amended_multiplier { newMiner 0 with skill_score := 100, streak := 1 }
    (by norm_num)

/-!
C3 — when deploy is accepted.  The source's only timing guard
(deploy.rs lines 28-31) admits the whole round window
`[board.start_slot, board.end_slot)`, which spans the Deploy, Commit and
Reveal phases, so stake can be added during the Commit phase; the claim's
"only during the Deploy phase" is refuted below.
-/

/-- C3 as amended: deploy is accepted only when the board's window is unset
(`end_slot = u64::MAX`) or the current slot lies inside
`[start_slot, end_slot)` — the whole round window, not just the Deploy
phase; outside it the call is rejected with no mutation. -/
theorem claim_C3_amended_deploy_window (inp : DeployInput)
    (hset : inp.board.end_slot ≠ U64_MAX)
    (hout : inp.slot < inp.board.start_slot ∨ inp.board.end_slot ≤ inp.slot) :
    process_deploy inp = .error () := by
  have hg : ¬ (inp.board.end_slot = U64_MAX ∨
      (inp.board.start_slot ≤ inp.slot ∧ inp.slot < inp.board.end_slot)) := by
    rintro (h | ⟨h1, h2⟩)
    · exact hset h
    · rcases hout with h3 | h3 <;> omega
  unfold process_deploy
  rw [if_pos hg]

/-- Board with its round window fixed at `[0, 120)` for round 1. -/
def boardCommit : Board := ⟨1, 0, 120⟩

/-- Round 1 with boundaries as the first deploy at slot 0 fixes them:
commit phase `[60, 90)`, reveal phase `[90, 120)`. -/
def roundCommit : Round := { newRound 1 7 with
  commit_start_slot := 60
  reveal_start_slot := 90
  expires_at := 216120 }

/-- C3, counterexample: at slot 70 — inside round 1's Commit phase, with the
phase boundaries set — a deploy of 5 units on square 0 succeeds and records
the stake, contradicting the claim that no stake can be added during the
Commit phase. -/
theorem claim_C3_counterexample_commit_deploy :
    boardCommit.end_slot ≠ U64_MAX ∧
    roundCommit.is_commit_phase 70 = true ∧
    (∃ res, process_deploy ⟨70, 7, 5, 1, boardCommit, some roundCommit, none⟩ = .ok res ∧
      res.round.deployed 0 = 5 ∧ res.round.total_deployed = 5) := by
  refine ⟨by decide, rfl, ⟨_, rfl, ?_, ?_⟩⟩ <;> decide

/-- Witness for the amended C3: with the window `[0, 120)` set, a deploy at
slot 300 is rejected. -/
theorem claim_C3_amended_deploy_window_witness :
    process_deploy ⟨300, 7, 5, 1, boardCommit, some roundCommit, none⟩ = .error () :=
  claim_C3_amended_deploy_window ⟨300, 7, 5, 1, boardCommit, some roundCommit, none⟩
    (by decide) (Or.inr (by decide))

/-!
C10 — a zero-amount deploy is accepted and still counts the participant.
-/

/-- The round-start step keeps the round id. -/
theorem startRoundPair_snd_id (b : Board) (r : Round) (s : Nat) :
    (startRoundPair b r s).2.id = r.id := by
  unfold startRoundPair
  split <;> rfl

/-- The round-start step keeps the per-square stake. -/
theorem startRoundPair_snd_deployed (b : Board) (r : Round) (s : Nat) :
    (startRoundPair b r s).2.deployed = r.deployed := by
  unfold startRoundPair
  split <;> rfl

/-- The round-start step keeps the per-square participant counts. -/
theorem startRoundPair_snd_count (b : Board) (r : Round) (s : Nat) :
    (startRoundPair b r s).2.count = r.count := by
  unfold startRoundPair
  split <;> rfl

/-- The round-start step keeps the stake grand total. -/
theorem startRoundPair_snd_total_deployed (b : Board) (r : Round) (s : Nat) :
    (startRoundPair b r s).2.total_deployed = r.total_deployed := by
  unfold startRoundPair
  split <;> rfl

/-- A loop step at another square does not change this square's count. -/
theorem deploySquare_count_ne (amt : Nat) (st : DeployLoopState) (j : Nat) (b : Bool)
    (i : Nat) (hij : j ≠ i) :
    (deploySquare amt st j b).round.count i = st.round.count i := by
  unfold deploySquare
  split
  · rfl
  · split
    · rfl
    · simp [Function.update_noteq (fun h => hij h.symm)]

/-- A zero-amount loop step changes no stake record. -/
theorem deploySquare_zero_amount (st : DeployLoopState) (i : Nat) (b : Bool) :
    (deploySquare 0 st i b).round.deployed = st.round.deployed ∧
    (deploySquare 0 st i b).round.total_deployed = st.round.total_deployed ∧
    (deploySquare 0 st i b).miner.deployed = st.miner.deployed := by
  unfold deploySquare
  split
  · exact ⟨rfl, rfl, rfl⟩
  · split
    · exact ⟨rfl, rfl, rfl⟩
    · rename_i hb hd
      refine ⟨?_, by simp, ?_⟩
      · simp
      · have h0 : st.miner.deployed i = 0 := by omega
        conv_lhs => rw [show (0 : Nat) = st.miner.deployed i from h0.symm]
        simp [Function.update_eq_self]

/-- A zero-amount loop step at a selected, unfunded square still increments
that square's participant count. -/
theorem deploySquare_zero_count_self (st : DeployLoopState) (i : Nat)
    (hb : st.miner.deployed i = 0) :
    (deploySquare 0 st i true).round.count i = st.round.count i + 1 := by
  unfold deploySquare
  rw [if_neg (by simp)]
  rw [if_neg (by omega)]
  simp

/-- The loop never touches the count of a square it does not visit. -/
theorem foldl_deploy_count_not_mem (amt : Nat) (sel : Nat → Bool) (i : Nat) :
    ∀ (l : List Nat), i ∉ l → ∀ st : DeployLoopState,
      ((l.foldl (fun st j => deploySquare amt st j (sel j)) st).round.count i =
        st.round.count i) := by
  intro l
  induction l with
  | nil => intro _ st; rfl
  | cons a t ih =>
    intro hmem st
    simp only [List.foldl_cons]
    rw [ih (fun h => hmem (List.mem_cons_of_mem a h))]
    exact deploySquare_count_ne amt st a (sel a) i
      (fun h => hmem (h ▸ List.mem_cons_self a t))

/-- A zero-amount loop changes no stake record, over any square list. -/
theorem foldl_zero_amount (sel : Nat → Bool) :
    ∀ (l : List Nat) (st : DeployLoopState),
      ((l.foldl (fun st j => deploySquare 0 st j (sel j)) st).round.deployed =
          st.round.deployed) ∧
      ((l.foldl (fun st j => deploySquare 0 st j (sel j)) st).round.total_deployed =
          st.round.total_deployed) ∧
      ((l.foldl (fun st j => deploySquare 0 st j (sel j)) st).miner.deployed =
          st.miner.deployed) := by
  intro l
  induction l with
  | nil => exact fun st => ⟨rfl, rfl, rfl⟩
  | cons a t ih =>
    intro st
    simp only [List.foldl_cons]
    obtain ⟨h1, h2, h3⟩ := deploySquare_zero_amount st a (sel a)
    obtain ⟨g1, g2, g3⟩ := ih (deploySquare 0 st a (sel a))
    exact ⟨g1.trans h1, g2.trans h2, g3.trans h3⟩

/-- A zero-amount loop over a duplicate-free square list visiting a
selected, unfunded square increments exactly that square's count by one. -/
theorem foldl_zero_count (sel : Nat → Bool) (i : Nat) :
    ∀ (l : List Nat), i ∈ l → l.Nodup → ∀ st : DeployLoopState,
      sel i = true → st.miner.deployed i = 0 →
      ((l.foldl (fun st j => deploySquare 0 st j (sel j)) st).round.count i =
        st.round.count i + 1) := by
  intro l
  induction l with
  | nil => intro h; cases h
  | cons a t ih =>
    intro hmem hnd st hsel hdep
    simp only [List.foldl_cons]
    rcases List.mem_cons.mp hmem with heq | hmem2
    · subst heq
      have hnotmem : i ∉ t := (List.nodup_cons.mp hnd).1
      rw [foldl_deploy_count_not_mem 0 sel i t hnotmem]
      rw [hsel]
      exact deploySquare_zero_count_self st i hdep
    · have h3 := (deploySquare_zero_amount st a (sel a)).2.2
      have hcount := deploySquare_count_ne 0 st a (sel a) i
        (fun h => ((List.nodup_cons.mp hnd).1 (h ▸ hmem2)))
      rw [ih hmem2 (List.nodup_cons.mp hnd).2 _ hsel (by rw [h3]; exact hdep), hcount]

/-- C10: a manual deploy of amount zero targeting a selected square the
participant has not yet funded this round succeeds, leaves the miner's
deposit, the round's per-square stake and the round's stake total
unchanged, yet still increments that square's participant count by one. -/
theorem claim_C10_zero_amount_deploy (inp : DeployInput) (r : Round) (m : Miner)
    (i : Nat)
    (hr : inp.round = some r)
    (hm : inp.miner = some m)
    (hamt : inp.amount = 0)
    (hguard : inp.board.end_slot = U64_MAX ∨
      (inp.board.start_slot ≤ inp.slot ∧ inp.slot < inp.board.end_slot))
    (hrid : r.id = inp.board.round_id)
    (hauth : m.authority = inp.signer)
    (hround : m.round_id = r.id)
    (hsel : inp.mask.testBit i = true)
    (hi : i < 25)
    (hdep : m.deployed i = 0) :
    ∃ res, process_deploy inp = .ok res ∧
      res.round.deployed = r.deployed ∧
      res.round.total_deployed = r.total_deployed ∧
      res.miner.deployed i = 0 ∧
      res.round.count i = r.count i + 1 := by
  have hrid2 : m.round_id = (startRoundPair inp.board r inp.slot).2.id := by
    rw [startRoundPair_snd_id]
    exact hround
  unfold process_deploy
  rw [hr, hm]
  rw [if_neg (not_not_intro hguard)]
  rw [if_neg (fun h => h hrid)]
  rw [if_neg (fun h => h hauth)]
  simp only [hrid2, bne_self_eq_false, Bool.false_and, Bool.false_eq_true, if_false,
    hamt, ne_eq, eq_self_iff_true, not_true, if_false]
  obtain ⟨h1, h2, h3⟩ := foldl_zero_amount (fun j => inp.mask.testBit j) (List.range 25)
    ⟨m, (startRoundPair inp.board r inp.slot).2, 0, 0⟩
  have h4 := foldl_zero_count (fun j => inp.mask.testBit j) i (List.range 25)
    (List.mem_range.mpr hi) (List.nodup_range 25)
    ⟨m, (startRoundPair inp.board r inp.slot).2, 0, 0⟩ hsel hdep
  refine ⟨_, rfl, ?_, ?_, ?_, ?_⟩
  · simp only [h1, startRoundPair_snd_deployed]
  · simp only [h2, startRoundPair_snd_total_deployed]
  · simp only [apply_ite Miner.deployed, ite_self, h3]
    exact hdep
  · simp only [h4]
    simp only [congrFun (startRoundPair_snd_count inp.board r inp.slot) i]

/-- Miner of authority 7 already in round 1, nothing yet deployed. -/
def minerRound1 : Miner := { newMiner 7 with round_id := 1, checkpoint_id := 1 }

/-- Witness for C10: a zero-amount deploy at slot 70 on square 0 of round 1
succeeds, records no stake, and counts the participant once. -/
theorem claim_C10_zero_amount_deploy_witness :
    ∃ res, process_deploy ⟨70, 7, 0, 1, boardCommit, some roundCommit, some minerRound1⟩ =
        .ok res ∧
      res.round.deployed = roundCommit.deployed ∧
      res.round.total_deployed = roundCommit.total_deployed ∧
      res.miner.deployed 0 = 0 ∧
      res.round.count 0 = roundCommit.count 0 + 1 :=
  claim_C10_zero_amount_deploy ⟨70, 7, 0, 1, boardCommit, some roundCommit, some minerRound1⟩
    roundCommit minerRound1 0 rfl rfl rfl (by decide) (by decide) (by decide)
    (by decide) (by decide) (by decide) (by decide)

/-!
C7 — the 10% claim fee and its redistribution.
-/

/-- `Miner::update_rewards` in closed form: it adds the pulled index amount
to `refined_ore` and the lifetime total and records the observed factor. -/
theorem Miner.update_rewards_eq (m : Miner) (t : Treasury) :
    m.update_rewards t = { m with
      refined_ore := m.refined_ore + m.pulled_refined t
      lifetime_rewards_ore := m.lifetime_rewards_ore + m.pulled_refined t
      rewards_factor := t.miner_rewards_factor } := by
  by_cases hgt : t.miner_rewards_factor > m.rewards_factor
  · unfold Miner.update_rewards Miner.pulled_refined
    rw [if_pos hgt, if_pos hgt]
  · unfold Miner.update_rewards Miner.pulled_refined
    rw [if_neg hgt, if_neg hgt]
    simp

/-- C7: a token claim, when the treasury's unclaimed pool is still positive
after removing the claimer's balance, skims a fee of one tenth of the
pre-fee `rewards_ore` portion (the pulled `refined_ore` share is exempt),
adds `fee / total_unclaimed` to the global index factor, moves the fee into
`total_refined`, and subtracts the fee from both the returned amount and
the claimer's lifetime token total.  The first and third hypotheses are the
treasury and lifetime accounting invariants under which the u64
subtractions the source performs agree with the model's ℕ subtractions. -/
theorem claim_C7_claim_fee (m : Miner) (now : Int) (t : Treasury)
    (h1 : m.rewards_ore ≤ t.total_unclaimed)
    (h2 : 0 < t.total_unclaimed - m.rewards_ore)
    (h3 : m.rewards_ore / 10 ≤ m.lifetime_rewards_ore + m.pulled_refined t) :
    m.claim_ore now t =
      (m.refined_ore + m.pulled_refined t + m.rewards_ore - m.rewards_ore / 10,
       { m with
          refined_ore := 0
          rewards_ore := 0
          last_claim_ore_at := now
          rewards_factor := t.miner_rewards_factor
          lifetime_rewards_ore :=
            m.lifetime_rewards_ore + m.pulled_refined t - m.rewards_ore / 10 },
       { t with
          total_unclaimed := t.total_unclaimed - m.rewards_ore
          total_refined :=
            t.total_refined - (m.refined_ore + m.pulled_refined t) + m.rewards_ore / 10
          miner_rewards_factor := t.miner_rewards_factor +
            ((m.rewards_ore / 10 : Nat) : ℚ) /
              ((t.total_unclaimed - m.rewards_ore : Nat) : ℚ) }) := by
  unfold Miner.claim_ore
  rw [Miner.update_rewards_eq]
  simp only []
  rw [if_pos h2]

/-- Concrete claimer: 1000 claimable tokens, 50 refined, lifetime 1050. -/
def minerClaim : Miner := { newMiner 7 with
  rewards_ore := 1000
  refined_ore := 50
  lifetime_rewards_ore := 1050 }

/-- Concrete treasury for the claim-fee witness. -/
def treasuryClaim : Treasury := ⟨0, 10000, 50⟩

/-- Witness for C7: claiming 1000 + 50 against a 10000-unit pool leaves a
9000-unit pool, a 100-unit fee, and 950 returned. -/
theorem claim_C7_claim_fee_witness :
    minerClaim.claim_ore 5 treasuryClaim =
      (minerClaim.refined_ore + minerClaim.pulled_refined treasuryClaim +
          minerClaim.rewards_ore - minerClaim.rewards_ore / 10,
       { minerClaim with
          refined_ore := 0
          rewards_ore := 0
          last_claim_ore_at := 5
          rewards_factor := treasuryClaim.miner_rewards_factor
          lifetime_rewards_ore :=
            minerClaim.lifetime_rewards_ore + minerClaim.pulled_refined treasuryClaim -
              minerClaim.rewards_ore / 10 },
       { treasuryClaim with
          total_unclaimed := treasuryClaim.total_unclaimed - minerClaim.rewards_ore
          total_refined :=
            treasuryClaim.total_refined -
                (minerClaim.refined_ore + minerClaim.pulled_refined treasuryClaim) +
              minerClaim.rewards_ore / 10
          miner_rewards_factor := treasuryClaim.miner_rewards_factor +
            ((minerClaim.rewards_ore / 10 : Nat) : ℚ) /
              ((treasuryClaim.total_unclaimed - minerClaim.rewards_ore : Nat) : ℚ) }) :=
  claim_C7_claim_fee minerClaim 5 treasuryClaim (by decide) (by decide) (by decide)
